import Mathlib

/-!
Verification of the `autoupdate` package
(src/src/github.com/getlantern/autoupdate/autoupdate.go).

The package owns an `AutoUpdate` struct (configuration, current version
string, a notification channel `UpdatedTo`) and a background loop that
queries an update server, compares versions, applies patches and
publishes successful updates on the channel.

External collaborators (the `go-update` check protocol, signature
verification, patch application, HTTP client construction) are modelled
as oracles: functions supplied as parameters whose answers the embedded
code consumes exactly the way the Go source does.

Symbols of this repository that are referenced by the source file but
whose defining files are not available (`VersionCompare`, `isVersionTag`,
the constants `Lower`/`Equal`/`Higher`, and the `Patch` type's methods)
are modelled from the specification and carry a doc comment saying so.
-/

/-- Errors returned by the external collaborators. `noUpdateAvailable`
models the distinguished sentinel error `check.NoUpdateAvailable` of the
go-update check package; `other` models every other error value. -/
inductive Err where
  | noUpdateAvailable
  | other (msg : String)
deriving DecidableEq, Repr

/-- Result of `check.Params.CheckForUpdate`: the fields of go-update's
`check.Result` that the source reads (only `Version`). -/
structure CheckResult where
  Version : String
deriving DecidableEq, Repr

/-- Config from the source: `URL` of the update endpoint and the PEM
`PublicKey` bytes. -/
structure Config where
  URL : String
  PublicKey : List Nat
deriving DecidableEq, Repr

/-- The `AutoUpdate` struct: embedded `*Config` and the version field `v`.
The `UpdatedTo` channel is modelled by the event traces produced by
`loopIter` below rather than by a field. -/
structure AutoUpdate where
  cfg : Config
  v : String
deriving DecidableEq, Repr

/-- Oracles for the external collaborators called by `check`:
`verifySignatureWithPEM` models `up.VerifySignatureWithPEM(a.PublicKey)`
(`some e` = error), and `checkForUpdate` models
`param.CheckForUpdate(a.URL, up)` for `param.AppVersion = a.Version()`,
returning the pair (result, error) exactly as the Go call does. -/
structure Env where
  verifySignatureWithPEM : List Nat → Option Err
  checkForUpdate : String → String → Option CheckResult × Option Err

/-- Numeric value of a list of decimal digit characters. -/
def digitsVal (l : List Char) : Nat :=
  l.foldl (fun acc c => acc * 10 + (c.toNat - 48)) 0

/-- Parse a nonempty all-digit character list as a natural number. -/
def parseNatChars (l : List Char) : Option Nat :=
  if l ≠ [] ∧ l.all Char.isDigit then some (digitsVal l) else none

/-- Split a character list on the dot character. -/
def splitDots : List Char → List (List Char)
  | [] => [[]]
  | c :: rest =>
    if c = '.' then [] :: splitDots rest
    else
      match splitDots rest with
      | g :: gs => (c :: g) :: gs
      | [] => [[c]]

/-- Modelled from the spec: VersionOrdering's `parse(tag)`. The defining
file of the version helpers is not under src/; per the spec the valid
format is exactly `v` followed by three non-negative integers separated
by `.`, yielding the (major, minor, patch) tuple. -/
def parseTag (s : String) : Option (Nat × Nat × Nat) :=
  match s.toList with
  | 'v' :: rest =>
    match splitDots rest with
    | [x, y, z] =>
      match parseNatChars x, parseNatChars y, parseNatChars z with
      | some a, some b, some c => some (a, b, c)
      | _, _, _ => none
    | _ => none
  | _ => none

/-- Modelled from the spec: `isVersionTag`, the validator used by
`SetVersion` (its defining file is not under src/): a string is a version
tag exactly when it parses as `v<uint>.<uint>.<uint>`. -/
def isVersionTag (s : String) : Bool :=
  (parseTag s).isSome

/-- The three-way comparison outcome of VersionOrdering. -/
inductive Cmp where
  | Lower
  | Equal
  | Higher
deriving DecidableEq, Repr

/-- Three-way comparison of natural numbers. -/
def cmpNat (x y : Nat) : Cmp :=
  if x < y then .Lower else if x = y then .Equal else .Higher

/-- Lexicographic three-way comparison of (major, minor, patch) tuples. -/
def cmpTuple (p q : Nat × Nat × Nat) : Cmp :=
  match cmpNat p.1 q.1 with
  | .Equal =>
    match cmpNat p.2.1 q.2.1 with
    | .Equal => cmpNat p.2.2 q.2.2
    | c => c
  | c => c

/-- Modelled from the spec: `VersionCompare(a, b)` (its defining file is
not under src/). Per spec section 4.1 the result names a's position
relative to b, compared lexicographically on the parsed (major, minor,
patch) integers; on malformed input the result is undefined (a fatal
caller contract violation per the spec), modelled as `none`. -/
def VersionCompare (a b : String) : Option Cmp :=
  match parseTag a, parseTag b with
  | some x, some y => some (cmpTuple x y)
  | _, _ => none

/-- `New` from the source: the struct literal sets `UpdatedTo` and
`Config`, so `v` is the Go zero value, the empty string. -/
def New (cfg : Config) : AutoUpdate :=
  ⟨cfg, ""⟩

/-- `Version` from the source: returns the internal version value. -/
def AutoUpdate.Version (a : AutoUpdate) : String :=
  a.v

/-- Does the string start with the character `v`? Models
`strings.HasPrefix(v, "v")` in `SetVersion`. -/
def startsWithV (s : String) : Bool :=
  match s.toList with
  | 'v' :: _ => true
  | _ => false

/-- `SetVersion` from the source. The two `panic` branches are modelled
as `none`; when no panic fires, the new state with `v` stored. -/
def AutoUpdate.SetVersion (a : AutoUpdate) (v : String) : Option AutoUpdate :=
  if ¬ startsWithV v then none
  else if ¬ isVersionTag v then none
  else some ⟨a.cfg, v⟩

/-- `check` from the source, with explicit state passing: verify the
signature with the public key, then call CheckForUpdate; the sentinel
error `NoUpdateAvailable` is converted to the non-error answer
(nil, nil), every other error is returned. The returned `AutoUpdate` is
the state after the call (the method assigns no field). -/
def check (a : AutoUpdate) (env : Env) : Except Err (Option CheckResult) × AutoUpdate :=
  match env.verifySignatureWithPEM a.cfg.PublicKey with
  | some e => (.error e, a)
  | none =>
    match env.checkForUpdate a.cfg.URL a.Version with
    | (res, err) =>
      match err with
      | some e => if e = Err.noUpdateAvailable then (.ok none, a) else (.error e, a)
      | none => (.ok res, a)

/-- Modelled from the spec: the `Patch` type (its defining file is not
under src/). The struct literals in the source show its fields `res` and
`v`; per the spec it carries the target version plus the apply
capability, with the empty version string as the no-patch sentinel. -/
structure Patch where
  res : Option CheckResult
  v : String
deriving DecidableEq, Repr

/-- Modelled from the spec: `Patch.Version()` returns the patch's version
string, the empty string meaning no patch. -/
def Patch.Version (p : Patch) : String :=
  p.v

/-- `Query` from the source, with explicit state passing: one `check`;
errors propagate; a nil result becomes the empty `Patch{}`; otherwise a
patch carrying `res` and `res.Version`. -/
def Query (a : AutoUpdate) (env : Env) : Except Err Patch × AutoUpdate :=
  match check a env with
  | (.error e, a1) => (.error e, a1)
  | (.ok none, a1) => (.ok ⟨none, ""⟩, a1)
  | (.ok (some r), a1) => (.ok ⟨some r, r.Version⟩, a1)

/-- Observable events of one loop iteration: an attempt to call
`patch.Apply()`, a send of a value on the `UpdatedTo` channel, and a call
to `SetVersion`, in the order the loop performs them. -/
inductive Event where
  | applyAttempt (v : String)
  | send (v : String)
  | setVer (v : String)
deriving DecidableEq, Repr

/-- Is the event an apply attempt? -/
def Event.isApply : Event → Bool
  | .applyAttempt _ => true
  | _ => false

/-- The values sent on the `UpdatedTo` channel in a trace, in order. -/
def sends (evs : List Event) : List String :=
  evs.filterMap fun e =>
    match e with
    | .send v => some v
    | _ => none

/-- Number of apply attempts in a trace. -/
def countApply (evs : List Event) : Nat :=
  (evs.filter Event.isApply).length

/-- One iteration of the body of `loop` from the source (the `for` with
its trailing sleep removed): query; on success compare
`VersionCompare(a.Version(), patch.Version()) == Higher`; if so apply
(the external apply outcome is the oracle `applyErr`, `none` = success);
on apply success send `patch.Version()` on the channel and then
`SetVersion(patch.Version())`. The result is the trace of events and the
state after the iteration, `none` when `SetVersion` panics. -/
def loopIter (a : AutoUpdate) (env : Env) (applyErr : Option Err) :
    List Event × Option AutoUpdate :=
  match (Query a env).1 with
  | .error _ => ([], some a)
  | .ok patch =>
    if VersionCompare a.Version patch.Version = some .Higher then
      match applyErr with
      | none =>
        match a.SetVersion patch.Version with
        | some a2 =>
          ([.applyAttempt patch.Version, .send patch.Version, .setVer patch.Version],
            some a2)
        | none => ([.applyAttempt patch.Version, .send patch.Version], none)
      | some _ => ([.applyAttempt patch.Version], some a)
    else ([], some a)

/-- Outcome of `Watch` from the source: panic when the version is unset,
otherwise the loop goroutine is launched and the call returns. -/
inductive WatchResult where
  | panicked
  | launched
deriving DecidableEq, Repr

/-- `Watch` from the source: panics when `a.v` is the empty string,
otherwise starts the background loop (`go a.loop()`) and returns. -/
def Watch (a : AutoUpdate) : WatchResult :=
  if a.v = "" then .panicked else .launched

/-- The shared HTTP transport `update.HTTPClient`: a direct client
(`&http.Client{}`), a successfully constructed proxied client, or the
nil client value a failed constructor returns alongside its error. -/
inductive Transport where
  | direct
  | client (addr : String)
  | nilClient
deriving DecidableEq, Repr

/-- `SetProxy` from the source, with the shared global
`update.HTTPClient` passed as explicit state `cur` and the external
constructor `util.HTTPClient("", proxyAddr)` as the oracle `httpClient`
returning (client, error). The Go multiple assignment
`update.HTTPClient, err = util.HTTPClient("", proxyAddr)` stores the
returned client value whether or not `err` is nil; an empty address
stores a fresh direct client. -/
def SetProxy (httpClient : String → Transport × Option Err)
    (cur : Transport) (proxyAddr : String) : Transport :=
  if proxyAddr ≠ "" then (httpClient proxyAddr).1
  else Transport.direct

/-- The version-field invariant: unset (empty) or a well-formed tag. -/
def versionInv (a : AutoUpdate) : Prop :=
  a.v = "" ∨ isVersionTag a.v = true

/-- Strict lexicographic order on (major, minor, patch) tuples. -/
def tupleLtLex (p q : Nat × Nat × Nat) : Prop :=
  p.1 < q.1 ∨ (p.1 = q.1 ∧ (p.2.1 < q.2.1 ∨ (p.2.1 = q.2.1 ∧ p.2.2 < q.2.2)))

lemma cmpNat_eq_lower {x y : Nat} : cmpNat x y = .Lower ↔ x < y := by
  unfold cmpNat; split_ifs <;> simp_all

lemma cmpNat_eq_equal {x y : Nat} : cmpNat x y = .Equal ↔ x = y := by
  unfold cmpNat; split_ifs <;> simp_all <;> omega

lemma cmpNat_eq_higher {x y : Nat} : cmpNat x y = .Higher ↔ y < x := by
  unfold cmpNat; split_ifs <;> simp_all <;> omega

lemma cmpTuple_eq_higher {p q : Nat × Nat × Nat} :
    cmpTuple p q = .Higher ↔ tupleLtLex q p := by
  obtain ⟨a, b, c⟩ := p; obtain ⟨d, e, f⟩ := q
  unfold cmpTuple tupleLtLex
  rcases h1 : cmpNat a d <;> rcases h2 : cmpNat b e <;> rcases h3 : cmpNat c f <;>
    simp only [cmpNat_eq_lower, cmpNat_eq_equal, cmpNat_eq_higher] at h1 h2 h3 <;>
    simp_all <;> omega

lemma cmpTuple_eq_lower {p q : Nat × Nat × Nat} :
    cmpTuple p q = .Lower ↔ tupleLtLex p q := by
  obtain ⟨a, b, c⟩ := p; obtain ⟨d, e, f⟩ := q
  unfold cmpTuple tupleLtLex
  rcases h1 : cmpNat a d <;> rcases h2 : cmpNat b e <;> rcases h3 : cmpNat c f <;>
    simp only [cmpNat_eq_lower, cmpNat_eq_equal, cmpNat_eq_higher] at h1 h2 h3 <;>
    simp_all <;> omega

lemma cmpTuple_eq_equal {p q : Nat × Nat × Nat} :
    cmpTuple p q = .Equal ↔ p = q := by
  obtain ⟨a, b, c⟩ := p; obtain ⟨d, e, f⟩ := q
  unfold cmpTuple
  rcases h1 : cmpNat a d <;> rcases h2 : cmpNat b e <;> rcases h3 : cmpNat c f <;>
    simp only [cmpNat_eq_lower, cmpNat_eq_equal, cmpNat_eq_higher] at h1 h2 h3 <;>
    simp_all <;> omega

/-- C7: for well-formed tags, VersionCompare is a strict total order
consistent with numeric comparison of the parsed (major, minor, patch)
tuples: Higher in one direction is Lower in the other, a tag compares
Equal to itself, and Higher is transitive. -/
theorem versionCompare_strict_total_order :
    ∀ s t u : String, ∀ x y : Nat × Nat × Nat,
      parseTag s = some x → parseTag t = some y →
      ((VersionCompare s t = some .Higher ↔ VersionCompare t s = some .Lower) ∧
       (VersionCompare s t = some .Higher ↔ tupleLtLex y x) ∧
       (VersionCompare s t = some .Equal ↔ x = y) ∧
       VersionCompare s s = some .Equal ∧
       (VersionCompare s t = some .Higher → VersionCompare t u = some .Higher →
         VersionCompare s u = some .Higher)) := by
  intro s t u x y hx hy
  refine ⟨?_, ?_, ?_, ?_, ?_⟩
  · unfold VersionCompare; rw [hx, hy]
    simp [cmpTuple_eq_higher, cmpTuple_eq_lower]
  · unfold VersionCompare; rw [hx, hy]
    simp [cmpTuple_eq_higher]
  · unfold VersionCompare; rw [hx, hy]
    simp [cmpTuple_eq_equal]
  · unfold VersionCompare; rw [hx]
    simp [cmpTuple_eq_equal]
  · intro h1 h2
    unfold VersionCompare at h1 h2 ⊢
    rw [hx, hy] at h1
    rw [hy] at h2
    rcases hz : parseTag u with _ | z
    · rw [hz] at h2; simp at h2
    · rw [hz] at h2; rw [hx]
      simp only [Option.some_inj] at h1 h2 ⊢
      simp only [cmpTuple_eq_higher] at h1 h2 ⊢
      unfold tupleLtLex at h1 h2 ⊢
      omega

/-- C7 witness: the theorem at the tags v1.2.3, v1.2.0, v1.0.0. -/
theorem versionCompare_strict_total_order_witness :
    (VersionCompare "v1.2.3" "v1.2.0" = some .Higher ↔
      VersionCompare "v1.2.0" "v1.2.3" = some .Lower) ∧
    (VersionCompare "v1.2.3" "v1.2.0" = some .Higher ↔ tupleLtLex (1, 2, 0) (1, 2, 3)) ∧
    (VersionCompare "v1.2.3" "v1.2.0" = some .Equal ↔ ((1, 2, 3) : Nat × Nat × Nat) = (1, 2, 0)) ∧
    VersionCompare "v1.2.3" "v1.2.3" = some .Equal ∧
    (VersionCompare "v1.2.3" "v1.2.0" = some .Higher →
      VersionCompare "v1.2.0" "v1.0.0" = some .Higher →
      VersionCompare "v1.2.3" "v1.0.0" = some .Higher) :=
  versionCompare_strict_total_order "v1.2.3" "v1.2.0" "v1.0.0" (1, 2, 3) (1, 2, 0)
    (by decide) (by decide)

lemma startsWithV_of_isVersionTag {v : String} (h : isVersionTag v = true) :
    startsWithV v = true := by
  unfold isVersionTag at h
  unfold parseTag at h
  unfold startsWithV
  split at h
  next => rfl
  next => simp at h

lemma setVersion_some {a : AutoUpdate} {v : String} (h : isVersionTag v = true) :
    a.SetVersion v = some ⟨a.cfg, v⟩ := by
  unfold AutoUpdate.SetVersion
  rw [startsWithV_of_isVersionTag h, h]
  simp

lemma setVersion_none {a : AutoUpdate} {v : String} (h : isVersionTag v = false) :
    a.SetVersion v = none := by
  unfold AutoUpdate.SetVersion
  rw [h]
  simp

lemma isVersionTag_of_versionCompare {s t : String} {c : Cmp}
    (h : VersionCompare s t = some c) :
    isVersionTag s = true ∧ isVersionTag t = true := by
  unfold VersionCompare at h
  unfold isVersionTag
  rcases h1 : parseTag s with _ | x <;> rw [h1] at h
  · simp at h
  · rcases h2 : parseTag t with _ | y <;> rw [h2] at h
    · simp at h
    · simp

lemma versionCompare_right_empty (s : String) : VersionCompare s "" = none := by
  unfold VersionCompare
  have h : parseTag "" = none := rfl
  rw [h]
  cases hp : parseTag s <;> rfl

lemma check_state (a : AutoUpdate) (env : Env) : (check a env).2 = a := by
  unfold check
  rcases hv : env.verifySignatureWithPEM a.cfg.PublicKey with _ | e
  · rcases hc : env.checkForUpdate a.cfg.URL a.Version with ⟨res, err⟩
    rcases err with _ | e2
    · rfl
    · dsimp only
      split <;> rfl
  · rfl

lemma query_state (a : AutoUpdate) (env : Env) : (Query a env).2 = a := by
  unfold Query
  have h := check_state a env
  rcases hc : check a env with ⟨r, a1⟩
  rw [hc] at h
  dsimp at h
  subst h
  cases r with
  | error e => rfl
  | ok o => cases o <;> rfl

/-- C5: SetVersion panics exactly on strings that are not well-formed
version tags (leaving the state untouched), stores well-formed tags, and
the spec's example strings behave as stated. -/
theorem setVersion_panics_iff :
    (∀ a : AutoUpdate, ∀ v : String,
      (a.SetVersion v = none ↔ isVersionTag v = false) ∧
      (∀ a2, a.SetVersion v = some a2 → a2 = (⟨a.cfg, v⟩ : AutoUpdate))) ∧
    isVersionTag "v0.0.1" = true ∧ isVersionTag "v12.3.45" = true ∧
    isVersionTag "1.0.0" = false ∧ isVersionTag "v1.0" = false ∧
    isVersionTag "vX.Y.Z" = false := by
  refine ⟨?_, by decide, by decide, by decide, by decide, by decide⟩
  intro a v
  constructor
  · constructor
    · intro h
      cases ht : isVersionTag v
      · rfl
      · rw [setVersion_some ht] at h; simp at h
    · intro h
      exact setVersion_none h
  · intro a2 h
    cases ht : isVersionTag v
    · rw [setVersion_none ht] at h; simp at h
    · rw [setVersion_some ht] at h
      exact (Option.some.inj h).symm

/-- C5 witness: the theorem applied at the rejected tag vX.Y.Z and the
accepted tag v0.0.1. -/
theorem setVersion_panics_iff_witness :
    AutoUpdate.SetVersion ⟨⟨"", []⟩, ""⟩ "vX.Y.Z" = none ∧
    (⟨⟨"", []⟩, "v0.0.1"⟩ : AutoUpdate) = ⟨⟨"", []⟩, "v0.0.1"⟩ :=
  ⟨((setVersion_panics_iff.1 ⟨⟨"", []⟩, ""⟩ "vX.Y.Z").1).mpr (by decide),
   (setVersion_panics_iff.1 ⟨⟨"", []⟩, ""⟩ "v0.0.1").2 ⟨⟨"", []⟩, "v0.0.1"⟩ (by rfl)⟩

/-- C9: Watch panics exactly when the current version is unset (the
empty string), and otherwise launches the background loop. -/
theorem watch_panics_iff_unset :
    ∀ a : AutoUpdate,
      (Watch a = .panicked ↔ a.Version = "") ∧
      (Watch a = .launched ↔ a.Version ≠ "") := by
  intro a
  unfold Watch AutoUpdate.Version
  split_ifs with h <;> simp [h]

/-- C9 witness: Watch with a set version launches the loop, and with the
unset version panics. -/
theorem watch_panics_iff_unset_witness :
    Watch ⟨⟨"", []⟩, "v1.0.0"⟩ = .launched ∧ Watch ⟨⟨"", []⟩, ""⟩ = .panicked :=
  ⟨((watch_panics_iff_unset ⟨⟨"", []⟩, "v1.0.0"⟩).2).mpr (by decide),
   ((watch_panics_iff_unset ⟨⟨"", []⟩, ""⟩).1).mpr (by decide)⟩

/-- C8: Query mutates no state (the updater after Query, and after the
inner check, is the updater before), so two consecutive Query calls
against the same collaborator answers return patches with the same
version. -/
theorem query_pure_idempotent :
    ∀ a env,
      (Query a env).2 = a ∧ (check a env).2 = a ∧
      (∀ p q, (Query a env).1 = .ok p → (Query ((Query a env).2) env).1 = .ok q →
        p.Version = q.Version) := by
  intro a env
  refine ⟨query_state a env, check_state a env, ?_⟩
  intro p q hp hq
  rw [query_state a env] at hq
  rw [hp] at hq
  cases hq
  rfl

/-- C8 witness: the theorem at a concrete updater and a stable
collaborator reporting v1.2.0. -/
theorem query_pure_idempotent_witness :
    (Query ⟨⟨"u", []⟩, "v1.0.0"⟩ ⟨fun _ => none, fun _ _ => (some ⟨"v1.2.0"⟩, none)⟩).2 =
      ⟨⟨"u", []⟩, "v1.0.0"⟩ ∧
    Patch.Version ⟨some ⟨"v1.2.0"⟩, "v1.2.0"⟩ = Patch.Version ⟨some ⟨"v1.2.0"⟩, "v1.2.0"⟩ :=
  ⟨(query_pure_idempotent ⟨⟨"u", []⟩, "v1.0.0"⟩
      ⟨fun _ => none, fun _ _ => (some ⟨"v1.2.0"⟩, none)⟩).1,
   (query_pure_idempotent ⟨⟨"u", []⟩, "v1.0.0"⟩
      ⟨fun _ => none, fun _ _ => (some ⟨"v1.2.0"⟩, none)⟩).2.2
     ⟨some ⟨"v1.2.0"⟩, "v1.2.0"⟩ ⟨some ⟨"v1.2.0"⟩, "v1.2.0"⟩ rfl rfl⟩

/-- C3: when Apply returns an error the iteration leaves the updater
state exactly as it was and sends nothing on the notification channel. -/
theorem loop_apply_failure_atomic :
    ∀ a env e,
      (loopIter a env (some e)).2 = some a ∧ sends (loopIter a env (some e)).1 = [] := by
  intro a env e
  unfold loopIter
  cases hq : (Query a env).1
  · exact ⟨rfl, rfl⟩
  · dsimp only
    split
    · exact ⟨rfl, rfl⟩
    · exact ⟨rfl, rfl⟩

/-- C6 counterexample: a failing transport construction does not leave
the shared transport as previously configured — the Go multiple
assignment stores the constructor's returned (nil) client even when the
error is non-nil, so the previously configured proxied client is lost. -/
theorem setProxy_error_overwrites :
    (((fun _ => (Transport.nilClient, some (Err.other "bad proxy"))) :
        String → Transport × Option Err) "badaddr").2 = some (Err.other "bad proxy") ∧
    SetProxy (fun _ => (Transport.nilClient, some (Err.other "bad proxy")))
      (Transport.client "old") "badaddr" = Transport.nilClient ∧
    Transport.nilClient ≠ Transport.client "old" :=
  ⟨rfl, rfl, by decide⟩

/-- C6 (amended): SetProxy with a non-empty address stores whatever
client value the constructor returned — also when the constructor also
returned an error, in which case the error is only logged — and SetProxy
with an empty address resets the shared transport to a direct client. -/
theorem setProxy_stores_returned_client :
    ∀ httpClient cur addr,
      (addr ≠ "" → SetProxy httpClient cur addr = (httpClient addr).1) ∧
      SetProxy httpClient cur "" = Transport.direct := by
  intro f cur addr
  constructor
  · intro h
    unfold SetProxy
    rw [if_pos h]
  · unfold SetProxy
    simp

/-- C6 witness: the amended theorem at a concrete succeeding
constructor. -/
theorem setProxy_stores_returned_client_witness :
    SetProxy (fun addr => (Transport.client addr, none)) Transport.direct "proxyhost" =
      (((fun addr => (Transport.client addr, none)) :
        String → Transport × Option Err) "proxyhost").1 :=
  (setProxy_stores_returned_client (fun addr => (Transport.client addr, none))
    Transport.direct "proxyhost").1 (by decide)

/-- C10: the version field is empty at construction, SetVersion only
ever stores well-formed tags, and a loop iteration preserves the
invariant that the stored version is empty or a well-formed tag — in
particular the post-apply write goes through SetVersion, which panics
rather than store a malformed value. -/
theorem version_field_invariant :
    (∀ cfg, (New cfg).v = "") ∧
    (∀ a v a2, AutoUpdate.SetVersion a v = some a2 → isVersionTag a2.v = true) ∧
    (∀ a env applyErr a2, versionInv a → (loopIter a env applyErr).2 = some a2 →
      versionInv a2) := by
  refine ⟨fun _ => rfl, ?_, ?_⟩
  · intro a v a2 h
    cases ht : isVersionTag v
    · rw [setVersion_none ht] at h; simp at h
    · rw [setVersion_some ht] at h
      rw [← Option.some.inj h]
      exact ht
  · intro a env applyErr a2 hinv h
    unfold loopIter at h
    rcases hq : (Query a env).1 with e | patch <;> rw [hq] at h <;> dsimp only at h
    · rw [← Option.some.inj h]; exact hinv
    · by_cases hc : VersionCompare a.Version patch.Version = some Cmp.Higher
      · rw [if_pos hc] at h
        rcases applyErr with _ | e
        · have ht : isVersionTag (Patch.Version patch) = true :=
            (isVersionTag_of_versionCompare hc).2
          rw [setVersion_some ht] at h
          dsimp only at h
          rw [← Option.some.inj h]
          exact Or.inr ht
        · rw [← Option.some.inj h]; exact hinv
      · rw [if_neg hc] at h
        rw [← Option.some.inj h]; exact hinv

/-- C10 witness: the loop-iteration conjunct at a concrete updater whose
iteration applies a patch and stores its well-formed version. -/
theorem version_field_invariant_witness :
    versionInv ⟨⟨"u", []⟩, "v1.0.0"⟩ :=
  version_field_invariant.2.2 ⟨⟨"u", []⟩, "v2.0.0"⟩
    ⟨fun _ => none, fun _ _ => (some ⟨"v1.0.0"⟩, none)⟩ none ⟨⟨"u", []⟩, "v1.0.0"⟩
    (Or.inr (by decide)) rfl

/-- C1 counterexample: with current version v1.0.0 and the server
reporting v1.2.0 — strictly higher than current under the spec's
compare(a, b) semantics — the iteration attempts no apply at all,
because the source guards on
VersionCompare(a.Version(), patch.Version()) == Higher, which under
those semantics asks whether the current version is higher. -/
theorem loop_apply_guard_claim_false :
    (Query ⟨⟨"u", []⟩, "v1.0.0"⟩
      ⟨fun _ => none, fun _ _ => (some ⟨"v1.2.0"⟩, none)⟩).1 =
        .ok ⟨some ⟨"v1.2.0"⟩, "v1.2.0"⟩ ∧
    VersionCompare "v1.2.0" "v1.0.0" = some Cmp.Higher ∧
    countApply (loopIter ⟨⟨"u", []⟩, "v1.0.0"⟩
      ⟨fun _ => none, fun _ _ => (some ⟨"v1.2.0"⟩, none)⟩ none).1 = 0 :=
  ⟨rfl, by decide, rfl⟩

/-- C1 (amended): in every iteration, if Query succeeds the loop
attempts Apply exactly once if and only if
VersionCompare(currentVersion, patch.version()) returns Higher — under
the spec's compare(a, b) semantics, when the current version is strictly
higher than the patch's version — and otherwise, as when Query fails, no
apply is attempted in that iteration. -/
theorem loop_apply_guard :
    (∀ a env applyErr p, (Query a env).1 = .ok p →
      countApply (loopIter a env applyErr).1 =
        if VersionCompare a.Version p.Version = some Cmp.Higher then 1 else 0) ∧
    (∀ a env applyErr e, (Query a env).1 = .error e →
      (loopIter a env applyErr).1 = []) := by
  constructor
  · intro a env applyErr p hq
    unfold loopIter
    rw [hq]
    dsimp only
    by_cases hc : VersionCompare a.Version p.Version = some Cmp.Higher
    · simp only [if_pos hc]
      rcases applyErr with _ | e
      · rcases hs : AutoUpdate.SetVersion a p.Version with _ | a2 <;> rfl
      · rfl
    · simp only [if_neg hc]
      rfl
  · intro a env applyErr e hq
    unfold loopIter
    rw [hq]

/-- C1 witness: the amended theorem at a concrete iteration whose
current version v2.0.0 is strictly higher than the reported v1.0.0, so
exactly one apply is attempted. -/
theorem loop_apply_guard_witness :
    countApply (loopIter ⟨⟨"u", []⟩, "v2.0.0"⟩
      ⟨fun _ => none, fun _ _ => (some ⟨"v1.0.0"⟩, none)⟩ none).1 =
      if VersionCompare "v2.0.0" "v1.0.0" = some Cmp.Higher then 1 else 0 :=
  loop_apply_guard.1 ⟨⟨"u", []⟩, "v2.0.0"⟩
    ⟨fun _ => none, fun _ _ => (some ⟨"v1.0.0"⟩, none)⟩ none
    ⟨some ⟨"v1.0.0"⟩, "v1.0.0"⟩ rfl

/-- C2: in an iteration whose apply succeeds, exactly one value — the
patch's version — is sent on the notification channel, the updater's
version afterwards is the patch's version, and the send strictly
precedes the version update. -/
theorem loop_apply_success_sends_then_sets :
    ∀ a env p, (Query a env).1 = .ok p →
      VersionCompare a.Version p.Version = some Cmp.Higher →
      sends (loopIter a env none).1 = [p.Version] ∧
      (∃ a2, (loopIter a env none).2 = some a2 ∧ a2.Version = p.Version) ∧
      (∃ i j, i < j ∧ (loopIter a env none).1.get? i = some (.send p.Version) ∧
        (loopIter a env none).1.get? j = some (.setVer p.Version)) := by
  intro a env p hq hc
  have ht : isVersionTag (Patch.Version p) = true := (isVersionTag_of_versionCompare hc).2
  have hl : loopIter a env none =
      ([.applyAttempt p.Version, .send p.Version, .setVer p.Version],
        some ⟨a.cfg, p.Version⟩) := by
    unfold loopIter
    rw [hq]
    dsimp only
    rw [if_pos hc, setVersion_some ht]
  rw [hl]
  exact ⟨rfl, ⟨⟨a.cfg, p.Version⟩, rfl, rfl⟩, 1, 2, by omega, rfl, rfl⟩

/-- C2 witness: the theorem at a concrete iteration (current v2.0.0,
patch v1.0.0, apply succeeding): the channel receives exactly
["v1.0.0"]. -/
theorem loop_apply_success_sends_then_sets_witness :
    sends (loopIter ⟨⟨"u", []⟩, "v2.0.0"⟩
      ⟨fun _ => none, fun _ _ => (some ⟨"v1.0.0"⟩, none)⟩ none).1 = ["v1.0.0"] :=
  (loop_apply_success_sends_then_sets ⟨⟨"u", []⟩, "v2.0.0"⟩
    ⟨fun _ => none, fun _ _ => (some ⟨"v1.0.0"⟩, none)⟩
    ⟨some ⟨"v1.0.0"⟩, "v1.0.0"⟩ rfl (by decide)).1

/-- C4: when the check reports no update (the NoUpdateAvailable sentinel)
Query returns the non-error empty patch (version the empty string) and
the iteration attempts no apply; when the check itself fails — at
signature verification or with any other error — Query returns that
error instead. -/
theorem query_no_update_empty_patch :
    (∀ a env applyErr,
      env.verifySignatureWithPEM a.cfg.PublicKey = none →
      (env.checkForUpdate a.cfg.URL a.Version).2 = some Err.noUpdateAvailable →
      ((Query a env).1 = .ok ⟨none, ""⟩ ∧ countApply (loopIter a env applyErr).1 = 0)) ∧
    (∀ a env e, env.verifySignatureWithPEM a.cfg.PublicKey = some e →
      (Query a env).1 = .error e) ∧
    (∀ a env m, env.verifySignatureWithPEM a.cfg.PublicKey = none →
      (env.checkForUpdate a.cfg.URL a.Version).2 = some (Err.other m) →
      (Query a env).1 = .error (Err.other m)) := by
  refine ⟨?_, ?_, ?_⟩
  · intro a env applyErr hv hc
    have hq : (Query a env).1 = .ok ⟨none, ""⟩ := by
      unfold Query check
      rw [hv]
      rcases hp : env.checkForUpdate a.cfg.URL a.Version with ⟨res, err⟩
      rw [hp] at hc
      dsimp only at hc
      rw [hc]
      rfl
    refine ⟨hq, ?_⟩
    unfold loopIter
    rw [hq]
    dsimp only
    have hne : VersionCompare a.Version (Patch.Version ⟨none, ""⟩) = none :=
      versionCompare_right_empty a.Version
    rw [hne]
    rw [if_neg (by simp)]
    rfl
  · intro a env e hv
    unfold Query check
    rw [hv]
  · intro a env m hv hc
    unfold Query check
    rw [hv]
    rcases hp : env.checkForUpdate a.cfg.URL a.Version with ⟨res, err⟩
    rw [hp] at hc
    dsimp only at hc
    rw [hc]
    rfl

/-- C4 witness: the no-update conjunct at a concrete updater and a
collaborator answering NoUpdateAvailable. -/
theorem query_no_update_empty_patch_witness :
    (Query ⟨⟨"u", []⟩, "v1.0.0"⟩
      ⟨fun _ => none, fun _ _ => (none, some Err.noUpdateAvailable)⟩).1 =
        .ok ⟨none, ""⟩ ∧
    countApply (loopIter ⟨⟨"u", []⟩, "v1.0.0"⟩
      ⟨fun _ => none, fun _ _ => (none, some Err.noUpdateAvailable)⟩ none).1 = 0 :=
  query_no_update_empty_patch.1 ⟨⟨"u", []⟩, "v1.0.0"⟩
    ⟨fun _ => none, fun _ _ => (none, some Err.noUpdateAvailable)⟩ none rfl rfl
